import Mathlib

/-!
Verification development for the `fetchfern/mips` MIPS32 interpreter.

The definitions below are a shallow embedding of the Rust sources:
`crates/mips_cpu/src/cycle/data.rs`, `crates/mips_cpu/src/cycle/compute.rs`,
`crates/mips_cpu/src/register.rs`, `crates/mips_cpu/src/mem.rs`,
`crates/mips_cpu/src/exception.rs`, and the `crates/mips_program` storage
backends.  Machine integers (`u32`, `u16`, `u8`, `usize`) are embedded as
`Nat` with explicit `% 2^32` where the source wraps; Rust's plain `+`/`-`
(which panic on overflow in debug builds, as the repository's own notes
assume) are embedded as checked operations returning `Option`.  A Rust
panic — an overflow of a checked operation, a `RefCell` borrow collision
followed by `.unwrap()`, or a `todo!()`/`unimplemented!()` arm — is
embedded as `none`.
-/

namespace Mips

/-- One past the largest `u32` value. -/
def U32_MOD : Nat := 4294967296

/-- Checked `u32` addition: Rust `a + b`, which panics (here: `none`) when the
unsigned sum overflows. -/
def checked_add (a b : Nat) : Option Nat :=
  if a + b < U32_MOD then some (a + b) else none

/-- Checked `u32` subtraction: Rust `a - b`, which panics (here: `none`) when
the unsigned difference underflows. -/
def checked_sub (a b : Nat) : Option Nat :=
  if b ≤ a then some (a - b) else none

/-- Rust `u32::wrapping_add`. -/
def wrapping_add (a b : Nat) : Nat := (a + b) % U32_MOD

/-- Rust `u32::wrapping_sub` (operands below `2^32`). -/
def wrapping_sub (a b : Nat) : Nat := (a + U32_MOD - b) % U32_MOD

/-- Rust `u32` bitwise complement `!a` for `a < 2^32`. -/
def complement32 (a : Nat) : Nat := a ^^^ 0xffffffff

/-! ## `cycle/data.rs` — field isolation helpers -/

/-- Source `data::isolate_opcode`: `(instr >> 26) & ((1 << 6) - 1)`. -/
def isolate_opcode (instr : Nat) : Nat := (instr >>> 26) &&& ((1 <<< 6) - 1)

/-- Source `data::isolate_funct`: `instr & ((1 << 6) - 1)`. -/
def isolate_funct (instr : Nat) : Nat := instr &&& ((1 <<< 6) - 1)

/-- Source `data::isolate_rs`: `(instr >> 21) & ((1 << 5) - 1)`. -/
def isolate_rs (instr : Nat) : Nat := (instr >>> 21) &&& ((1 <<< 5) - 1)

/-- Source `data::isolate_rt`: `(instr >> 16) & ((1 << 5) - 1)`. -/
def isolate_rt (instr : Nat) : Nat := (instr >>> 16) &&& ((1 <<< 5) - 1)

/-- Source `data::isolate_rd`: `(instr >> 11) & ((1 << 5) - 1)`. -/
def isolate_rd (instr : Nat) : Nat := (instr >>> 11) &&& ((1 <<< 5) - 1)

/-- Source `data::isolate_shamt`: `(instr >> 6) & ((1 << 5) - 1)`. -/
def isolate_shamt (instr : Nat) : Nat := (instr >>> 6) &&& ((1 <<< 5) - 1)

/-- Source `data::isolate_imm16`: `(instr & ((1 << 16) - 1)) as u16`. -/
def isolate_imm16 (instr : Nat) : Nat := instr &&& ((1 <<< 16) - 1)

/-- Source `data::isolate_target_26`: `instr & ((1 << 26) - 1)`.  Note that the
source returns the raw 26-bit field: it neither shifts it left by 2 nor merges
the upper four bits of the PC. -/
def isolate_target_26 (instr : Nat) : Nat := instr &&& ((1 <<< 26) - 1)

/-- Source `data::twos_complement_overflowed`:
`(n1 ^ n2) < 0x80000000 && (n1 ^ r) > 0x7fffffff`. -/
def twos_complement_overflowed (n1 n2 r : Nat) : Bool :=
  (n1 ^^^ n2) < 0x80000000 && (n1 ^^^ r) > 0x7fffffff

/-- Modelled from the spec: `compute.rs` calls a two-argument
`data::sign_extend(width, x)` (used as `sign_extend(16, imm16)` and
`sign_extend(8, byte)`) that is absent from the `data.rs` in `src/`; per the
spec's notation, `sext16(x)` "zero-or-sign-extends a 16-bit value to 32 bits
using its sign bit", and the 8-bit use sign-extends a byte (load-byte sign
extension scenario).  The argument `x` is below `2^width`. -/
def sign_extend (width x : Nat) : Nat :=
  if x &&& (1 <<< (width - 1)) = 0 then x
  else x ||| (((1 <<< (32 - width)) - 1) <<< width)

/-- Modelled from the spec: `compute.rs` calls `data::add_ihalf_to_uword(word,
half)` which is absent from `src/` (only callers exist).  The name reads "add
a signed halfword to an unsigned word", and the spec pins its use for loads:
`lb rt, offset(rs)` accesses `rs + sext16(offset)` (§8: `load_word(a)` for `a`
in `.text` equals the little-endian bytes at `a`; scenario 5 reads `0($8)` at
`$8` exactly), so the helper adds the sign-extended 16-bit value to the word,
wrapping modulo `2^32`.  The same helper is what the branch handlers apply to
the PC, with no `+ 4` and no left shift at the call sites. -/
def add_ihalf_to_uword (w h : Nat) : Nat :=
  (w + sign_extend 16 h) % U32_MOD

/-! ## `exception.rs` -/

/-- Source `exception::Exception` (architectural exceptions). -/
inductive Exception where
  | AddrLoadFetch
  | AddrStore
  | Syscall
  | Overflow
  | Trap
deriving DecidableEq

/-- Modelled from the spec: the `Next` enum consumed by `exception.rs` and
produced by `cycle/compute.rs` is not among the source files; per spec §3 the
cycle outcome is "a tagged variant with four cases: `Forward`,
`Branch(targetAddr)`, `Exception(kind)`, `VmError(reason)`". -/
inductive Next where
  | Forward
  | Branch (target : Nat)
  | Exception (e : Exception)
  | VmError (reason : String)
deriving DecidableEq

/-! ## `mips_program` storage backends -/

/-- Source `storage/continuous.rs` `Continuous`: a size-bound flat byte
buffer.  The `max_size` bound is advisory (a `debug_assert!` in the source);
reads are `data.get(index)`. -/
structure Continuous where
  data : List Nat
  max_size : Nat
deriving DecidableEq

/-- Source `Continuous::read_byte`. -/
def Continuous.read_byte (c : Continuous) (index : Nat) : Option Nat :=
  c.data.get? index

/-- Little-endian recomposition of `u16::from_le_bytes`. -/
def u16_from_le_bytes (b0 b1 : Nat) : Nat := b0 + 256 * b1

/-- Little-endian recomposition of `u32::from_le_bytes`. -/
def u32_from_le_bytes (b0 b1 b2 b3 : Nat) : Nat :=
  b0 + 256 * b1 + 65536 * b2 + 16777216 * b3

/-- Source `Continuous::read_halfword`. -/
def Continuous.read_halfword (c : Continuous) (index : Nat) : Option Nat :=
  match c.data.get? index, c.data.get? (index + 1) with
  | some b0, some b1 => some (u16_from_le_bytes b0 b1)
  | _, _ => none

/-- Source `Continuous::read_word`: `data.get(index..index + 4)?` then
little-endian composition, absent when the full 4-byte range is unavailable. -/
def Continuous.read_word (c : Continuous) (index : Nat) : Option Nat :=
  match c.data.get? index, c.data.get? (index + 1),
        c.data.get? (index + 2), c.data.get? (index + 3) with
  | some b0, some b1, some b2, some b3 => some (u32_from_le_bytes b0 b1 b2 b3)
  | _, _, _, _ => none

/-- Source `segmented_store.rs` `SIZE`: segments span 2048 bytes. -/
def SEG_SIZE : Nat := 2048

/-- Source `segmented_store.rs` `Segment`: a 2048-byte block starting at the
aligned offset `index` (the `data` list has length 2048 for every segment the
store creates). -/
structure Segment where
  index : Nat
  data : List Nat
deriving DecidableEq

/-- Source `Segment::to_relative_index`: `absolute.checked_sub(self.index)`. -/
def Segment.to_relative_index (s : Segment) (absolute : Nat) : Option Nat :=
  if absolute < s.index then none else some (absolute - s.index)

/-- Source `Segment::bytes_at`: the suffix of the block from `index` on. -/
def Segment.bytes_at (s : Segment) (index : Nat) : List Nat :=
  s.data.drop index

/-- Source `segmented_store.rs` `SegmentedStore`: an ordered list of segments.
The deque is kept sorted by start offset. -/
structure SegmentedStore where
  segments : List Segment
deriving DecidableEq

/-- Source `SegmentedStore::find_segment`: a binary search over the sorted
deque for the segment whose start equals `(index / SIZE) * SIZE`; on the
sorted deque this locates exactly the segment with that start, embedded here
as a first-match scan. -/
def SegmentedStore.find_segment (st : SegmentedStore) (index : Nat) : Option Segment :=
  st.segments.find? fun s => s.index == (index / SEG_SIZE) * SEG_SIZE

/-- Source `SegmentedStore::read_continuous`. -/
def SegmentedStore.read_continuous (st : SegmentedStore) (index : Nat) : Option (List Nat) :=
  (st.find_segment index).bind fun s =>
    (s.to_relative_index index).map fun i => s.bytes_at i

/-- Source `SegmentedStore::read_byte`: first byte of the continuous chunk. -/
def SegmentedStore.read_byte (st : SegmentedStore) (index : Nat) : Option Nat :=
  (st.read_continuous index).bind List.head?

/-- Source `SegmentedStore::read_halfword`. -/
def SegmentedStore.read_halfword (st : SegmentedStore) (index : Nat) : Option Nat :=
  match st.read_byte index, st.read_byte (index + 1) with
  | some b0, some b1 => some (u16_from_le_bytes b0 b1)
  | _, _ => none

/-- Source `SegmentedStore::read_word`: fast path when the four bytes cannot
cross a segment boundary (`div_ceil` comparison), otherwise a low/high
two-chunk composition into a zero-initialized 4-byte buffer. -/
def SegmentedStore.read_word (st : SegmentedStore) (index : Nat) : Option Nat :=
  if (index + (SEG_SIZE - 1)) / SEG_SIZE = (index + 4 + (SEG_SIZE - 1)) / SEG_SIZE then
    (st.read_continuous index).bind fun sl =>
      match sl with
      | b0 :: b1 :: b2 :: b3 :: _ => some (u32_from_le_bytes b0 b1 b2 b3)
      | _ => none
  else
    (st.read_continuous index).bind fun low =>
      (st.read_continuous (index + low.length)).bind fun high =>
        if low.length ≤ 4 ∧ 4 - low.length ≤ high.length then
          match low ++ high.take (4 - low.length) with
          | b0 :: b1 :: b2 :: b3 :: _ => some (u32_from_le_bytes b0 b1 b2 b3)
          | _ => none
        else none

/-- Source `hybrid_store.rs` `ContinuousRegion`: a span of bytes placed at
`index`. -/
structure ContinuousRegion where
  index : Nat
  data : List Nat
deriving DecidableEq

/-- Source `hybrid_store.rs` `HybridStore`: continuous spans over a segmented
fallback. -/
structure HybridStore where
  regions : List ContinuousRegion
  fallback : SegmentedStore
deriving DecidableEq

/-- Source `HybridStore::try_read_continuous`: first region whose range
contains `index`, sliced from the relative offset. -/
def HybridStore.try_read_continuous (h : HybridStore) (index : Nat) : Option (List Nat) :=
  (h.regions.find? fun r =>
      decide (r.index ≤ index) && decide (index < r.index + r.data.length)).map
    fun r => r.data.drop (index - r.index)

/-- Source `HybridStore::read`: the spans first, then the segmented
fallback. -/
def HybridStore.read (h : HybridStore) (index : Nat) : Option (List Nat) :=
  (h.try_read_continuous index).orElse fun _ => h.fallback.read_continuous index

/-- Source `HybridStore::read_byte`. -/
def HybridStore.read_byte (h : HybridStore) (index : Nat) : Option Nat :=
  (h.read index).bind List.head?

/-- Source `HybridStore::read_halfword`: byte-by-byte composition so that the
two bytes may come from different providers. -/
def HybridStore.read_halfword (h : HybridStore) (index : Nat) : Option Nat :=
  match h.read_byte index, h.read_byte (index + 1) with
  | some b0, some b1 => some (u16_from_le_bytes b0 b1)
  | _, _ => none

/-- Source `HybridStore::read_word`: byte-by-byte composition of four
`read_byte` results, absent when any byte is absent. -/
def HybridStore.read_word (h : HybridStore) (index : Nat) : Option Nat :=
  match h.read_byte index, h.read_byte (index + 1),
        h.read_byte (index + 2), h.read_byte (index + 3) with
  | some b0, some b1, some b2, some b3 => some (u32_from_le_bytes b0 b1 b2 b3)
  | _, _, _, _ => none

/-! ## `mips_program/src/lib.rs` — program image -/

/-- Source `Label`: position plus name, metadata only. -/
structure Label where
  position : Nat
  name : String
deriving DecidableEq

/-- Source `Labeled<S>`: a storage with label metadata. -/
structure Labeled (S : Type) where
  storage : S
  labels : List Label

/-- Source `Section` (the enum only has the three user sections). -/
inductive ProgSection where
  | Text
  | Extrn
  | Data
deriving DecidableEq

/-- Source `Context`. -/
inductive Context where
  | User
  | Kernel
  | External
deriving DecidableEq

/-- Source `ProgramData`: the six labeled sections (the `r#extern` field is
named `extrn` here). -/
structure ProgramData where
  text : Labeled HybridStore
  extrn : Labeled Continuous
  data : Labeled Continuous
  heap : Labeled SegmentedStore
  ktext : Labeled HybridStore
  kdata : Labeled SegmentedStore

/-- Source `interface.rs` `IoInterface`: a tagged read interface over the
three storage kinds. -/
inductive IoInterface where
  | Continuous (c : Continuous)
  | Hybrid (h : HybridStore)
  | Segmented (s : SegmentedStore)

/-- Source `IoInterface::read_byte`. -/
def IoInterface.read_byte : IoInterface → Nat → Option Nat
  | .Continuous c, index => c.read_byte index
  | .Hybrid h, index => h.read_byte index
  | .Segmented s, index => s.read_byte index

/-- Source `IoInterface::read_halfword`. -/
def IoInterface.read_halfword : IoInterface → Nat → Option Nat
  | .Continuous c, index => c.read_halfword index
  | .Hybrid h, index => h.read_halfword index
  | .Segmented s, index => s.read_halfword index

/-- Source `IoInterface::read_word`. -/
def IoInterface.read_word : IoInterface → Nat → Option Nat
  | .Continuous c, index => c.read_word index
  | .Hybrid h, index => h.read_word index
  | .Segmented s, index => s.read_word index

/-- Source `ProgramData::read`: every context is currently allowed to read
the three user sections, so the result is always `some`. -/
def ProgramData.read (p : ProgramData) (s : ProgSection) (_ctx : Context) :
    Option IoInterface :=
  match s with
  | .Text => some (.Hybrid p.text.storage)
  | .Extrn => some (.Continuous p.extrn.storage)
  | .Data => some (.Continuous p.data.storage)

/-- Source `HybridStore::insert_continuous`: push a span. -/
def HybridStore.insert_continuous (h : HybridStore) (index : Nat) (data : List Nat) :
    HybridStore :=
  { h with regions := h.regions ++ [{ index := index, data := data }] }

/-- Source `HybridStore::new` / `SegmentedStore::new` / `Continuous::init`:
empty stores. -/
def HybridStore.new : HybridStore := { regions := [], fallback := { segments := [] } }

/-- Source `SegmentedStore::new`. -/
def SegmentedStore.new : SegmentedStore := { segments := [] }

/-- Source `Continuous::init(max_size)`. -/
def Continuous.init (max_size : Nat) : Continuous := { data := [], max_size := max_size }

/-- Source `ProgramDataBuilder::build` with `text(bytes)` supplied: the text
bytes become a single continuous span at offset 0 of the hybrid text store;
`extern` and `data` are `Continuous::init(0)`; the other sections start
empty. -/
def buildProgram (text : List Nat) : ProgramData :=
  { text := { storage := HybridStore.new.insert_continuous 0 text, labels := [] }
    extrn := { storage := Continuous.init 0, labels := [] }
    data := { storage := Continuous.init 0, labels := [] }
    heap := { storage := SegmentedStore.new, labels := [] }
    ktext := { storage := HybridStore.new, labels := [] }
    kdata := { storage := SegmentedStore.new, labels := [] } }

/-! ## `mem.rs` — memory map -/

/-- Source `mem.rs` section layout constants. -/
def TEXT_START : Nat := 0x00400000

/-- Source `TEXT_END = EXTERN_START - 1`. -/
def TEXT_END : Nat := 0x0FFFFFFF

/-- Source `EXTERN_START`. -/
def EXTERN_START : Nat := 0x10000000

/-- Source `EXTERN_END = DATA_START - 1`. -/
def EXTERN_END : Nat := 0x1000FFFF

/-- Source `DATA_START`. -/
def DATA_START : Nat := 0x10010000

/-- Source `DATA_END = HEAP_START - 1`. -/
def DATA_END : Nat := 0x1003FFFF

/-- Source `MemoryMap`: routes guest addresses to the shared program image. -/
structure MemoryMap where
  program : ProgramData

/-- Source `MemoryMap::core_load`: classify the address into text, extern, or
data, obtain a read interface (`AddrLoadFetch` when denied), and return the
section start.  Addresses outside the three handled ranges hit the
`todo!("mem fetch ...")` arm, i.e. a panic (`none`). -/
def MemoryMap.core_load (m : MemoryMap) (addr : Nat) :
    Option (Except Exception (Nat × IoInterface)) :=
  if TEXT_START ≤ addr ∧ addr ≤ TEXT_END then
    some (match m.program.read .Text .User with
      | some io => .ok (TEXT_START, io)
      | none => .error .AddrLoadFetch)
  else if EXTERN_START ≤ addr ∧ addr ≤ EXTERN_END then
    some (match m.program.read .Extrn .User with
      | some io => .ok (EXTERN_START, io)
      | none => .error .AddrLoadFetch)
  else if DATA_START ≤ addr ∧ addr ≤ DATA_END then
    some (match m.program.read .Data .User with
      | some io => .ok (DATA_START, io)
      | none => .error .AddrLoadFetch)
  else none

/-- Source `MemoryMap::load_word`: `core_load` then
`io.read_word(addr - sub).unwrap_or(0)`.  No alignment check is performed. -/
def MemoryMap.load_word (m : MemoryMap) (addr : Nat) : Option (Except Exception Nat) :=
  match m.core_load addr with
  | none => none
  | some (.error e) => some (.error e)
  | some (.ok (sub, io)) => some (.ok ((io.read_word (addr - sub)).getD 0))

/-- Source `MemoryMap::load_halfword`.  No alignment check is performed. -/
def MemoryMap.load_halfword (m : MemoryMap) (addr : Nat) : Option (Except Exception Nat) :=
  match m.core_load addr with
  | none => none
  | some (.error e) => some (.error e)
  | some (.ok (sub, io)) => some (.ok ((io.read_halfword (addr - sub)).getD 0))

/-- Source `MemoryMap::load_byte`. -/
def MemoryMap.load_byte (m : MemoryMap) (addr : Nat) : Option (Except Exception Nat) :=
  match m.core_load addr with
  | none => none
  | some (.error e) => some (.error e)
  | some (.ok (sub, io)) => some (.ok ((io.read_byte (addr - sub)).getD 0))

/-! ## `register.rs` — register file

The source keeps the 32 regular registers in `RefCell`s; `Registers::r`
returns a `RefMut` and fails with a VM error when the register is already
mutably borrowed.  The cycle engine immediately `.unwrap()`s those results,
so a borrow collision is a panic.  The embedding keeps the register values as
a function and reproduces the collision checks explicitly at the borrow sites
(`parse_arithm_r`, `parse_arithm_i`, `parse_trap_r`, `jalr`, and the
and-link branches). -/

/-- Source `Registers`: 32 regular registers plus `pc`, `hi`, `lo`. -/
structure Registers where
  regular : Fin 32 → Nat
  pc : Nat
  hi : Nat
  lo : Nat

/-- Source `Registers::init`: zeroed registers except `r8 = 3`, `r9 = 4`;
`pc = TEXT_START`; `hi = lo = 0`. -/
def Registers.init : Registers :=
  { regular := fun i => if i.val = 8 then 3 else if i.val = 9 then 4 else 0
    pc := TEXT_START
    hi := 0
    lo := 0 }

/-- Value of regular register `n` (callers only pass `n < 32`, as
`isolate_r*` cannot produce 32 or more). -/
def Registers.read (r : Registers) (n : Nat) : Nat :=
  if h : n < 32 then r.regular ⟨n, h⟩ else 0

/-- Store `v` into regular register `n` (the write through a `RefMut` obtained
from `Registers::r`). -/
def Registers.write (r : Registers) (n : Nat) (v : Nat) : Registers :=
  { r with regular := fun i => if i.val = n then v else r.regular i }

/-- Source `Registers::link`: write `self.pc + 4` into register `n`; fails
(VM error, panicking caller) when `n` is out of range, and the `pc + 4` is a
checked addition. -/
def Registers.link (r : Registers) (n : Nat) : Option Registers :=
  if n < 32 then
    match checked_add r.pc 4 with
    | some v => some (r.write n v)
    | none => none
  else none

/-! ## `cycle/compute.rs` — decoder and cycle engine

Every Rust panic path (a borrow-collision `.unwrap()`, a checked-arithmetic
overflow, a `todo!()` or `unimplemented!()` arm) is `none`. -/

/-- Source `parse_arithm_r` (format `i rd, rs, rt`): mutably borrows `rd`,
then `rs`, then `rt`; the `RefCell` rejects a second mutable borrow of the
same cell, so any coincidence among the three field indices panics the
`.unwrap()`.  Returns the destination index and the two operand values. -/
def parse_arithm_r (instr : Nat) (reg : Registers) : Option (Nat × Nat × Nat) :=
  if isolate_rs instr = isolate_rd instr ∨ isolate_rt instr = isolate_rd instr ∨
      isolate_rt instr = isolate_rs instr then none
  else some (isolate_rd instr, reg.read (isolate_rs instr), reg.read (isolate_rt instr))

/-- Source `parse_arithm_i` (format `i rt, rs, imm16`): mutably borrows `rt`
then `rs`, so `rt = rs` panics.  Returns the `rt` index, the `rt` value, the
`rs` value, and the immediate. -/
def parse_arithm_i (instr : Nat) (reg : Registers) : Option (Nat × Nat × Nat × Nat) :=
  if isolate_rt instr = isolate_rs instr then none
  else some (isolate_rt instr, reg.read (isolate_rt instr),
    reg.read (isolate_rs instr), isolate_imm16 instr)

/-- Source `parse_trap_r` (format `i rs, rt`): mutably borrows `rs` then `rt`,
so `rs = rt` panics.  Returns the two operand values. -/
def parse_trap_r (instr : Nat) (reg : Registers) : Option (Nat × Nat) :=
  if isolate_rt instr = isolate_rs instr then none
  else some (reg.read (isolate_rs instr), reg.read (isolate_rt instr))

/-- Source `handle_opcode_zero`: dispatch on the funct field.  Shifts by a
register value (`sllv`) panic when the amount reaches the bit width; `add` and
`sub` return the overflow exception before writing `rd`; the trap functs
compare and never write; the default arm is `todo!()`. -/
def handle_opcode_zero (instr : Nat) (_memory : MemoryMap) (registers : Registers) :
    Option (Next × Registers) :=
  match isolate_funct instr with
  | 0x0 =>
    match parse_arithm_r instr registers with
    | none => none
    | some (rd, _, rt) =>
      some (Next.Forward, registers.write rd ((rt <<< isolate_shamt instr) % U32_MOD))
  | 0x3 =>
    match parse_arithm_r instr registers with
    | none => none
    | some (rd, _, rt) =>
      some (Next.Forward, registers.write rd ((rt >>> isolate_shamt instr) ||| (rt &&& (1 <<< 31))))
  | 0x4 =>
    match parse_arithm_r instr registers with
    | none => none
    | some (rd, rs, rt) =>
      if rs < 32 then some (Next.Forward, registers.write rd ((rt <<< rs) % U32_MOD))
      else none
  | 0x8 => some (Next.Branch (registers.read (isolate_rs instr)), registers)
  | 0x9 =>
    if isolate_rd instr = isolate_rs instr then none
    else
      match registers.link (isolate_rd instr) with
      | none => none
      | some reg2 => some (Next.Branch (reg2.read (isolate_rs instr)), reg2)
  | 0xa =>
    match parse_arithm_r instr registers with
    | none => none
    | some (rd, rs, rt) =>
      if rt = 0 then some (Next.Forward, registers.write rd rs)
      else some (Next.Forward, registers)
  | 0xb =>
    match parse_arithm_r instr registers with
    | none => none
    | some (rd, rs, rt) =>
      if rt ≠ 0 then some (Next.Forward, registers.write rd rs)
      else some (Next.Forward, registers)
  | 0x10 => some (Next.Forward, registers.write (isolate_rd instr) registers.hi)
  | 0x11 => some (Next.Forward, { registers with hi := registers.read (isolate_rs instr) })
  | 0x12 => some (Next.Forward, registers.write (isolate_rd instr) registers.lo)
  | 0x13 => some (Next.Forward, { registers with lo := registers.read (isolate_rs instr) })
  | 0x19 =>
    match parse_arithm_r instr registers with
    | none => none
    | some (_, rs, rt) =>
      some (Next.Forward,
        { registers with hi := (rs * rt) / U32_MOD, lo := (rs * rt) % U32_MOD })
  | 0x20 =>
    match parse_arithm_r instr registers with
    | none => none
    | some (rd, rs, rt) =>
      if twos_complement_overflowed rs rt (wrapping_add rs rt) then
        some (Next.Exception Exception.Overflow, registers)
      else some (Next.Forward, registers.write rd (wrapping_add rs rt))
  | 0x21 =>
    match parse_arithm_r instr registers with
    | none => none
    | some (rd, rs, rt) => some (Next.Forward, registers.write rd (wrapping_add rs rt))
  | 0x22 =>
    match parse_arithm_r instr registers with
    | none => none
    | some (rd, rs, rt) =>
      if twos_complement_overflowed rs rt (wrapping_sub rs rt) then
        some (Next.Exception Exception.Overflow, registers)
      else some (Next.Forward, registers.write rd (wrapping_sub rs rt))
  | 0x23 =>
    match parse_arithm_r instr registers with
    | none => none
    | some (rd, rs, rt) => some (Next.Forward, registers.write rd (wrapping_sub rs rt))
  | 0x24 =>
    match parse_arithm_r instr registers with
    | none => none
    | some (rd, rs, rt) => some (Next.Forward, registers.write rd (rs &&& rt))
  | 0x25 =>
    match parse_arithm_r instr registers with
    | none => none
    | some (rd, rs, rt) => some (Next.Forward, registers.write rd (rs ||| rt))
  | 0x26 =>
    match parse_arithm_r instr registers with
    | none => none
    | some (rd, rs, rt) => some (Next.Forward, registers.write rd (rs ^^^ rt))
  | 0x27 =>
    match parse_arithm_r instr registers with
    | none => none
    | some (rd, rs, rt) => some (Next.Forward, registers.write rd (complement32 (rs ||| rt)))
  | 0x31 =>
    match parse_trap_r instr registers with
    | none => none
    | some (rs, rt) =>
      if rs ≥ rt then some (Next.Exception Exception.Trap, registers)
      else some (Next.Forward, registers)
  | 0x33 =>
    match parse_trap_r instr registers with
    | none => none
    | some (rs, rt) =>
      if rs < rt then some (Next.Exception Exception.Trap, registers)
      else some (Next.Forward, registers)
  | 0x34 =>
    match parse_trap_r instr registers with
    | none => none
    | some (rs, rt) =>
      if rs = rt then some (Next.Exception Exception.Trap, registers)
      else some (Next.Forward, registers)
  | 0x36 =>
    match parse_trap_r instr registers with
    | none => none
    | some (rs, rt) =>
      if rs ≠ rt then some (Next.Exception Exception.Trap, registers)
      else some (Next.Forward, registers)
  | _ => none

/-- Source `handle_opcode_one` (REGIMM): `parse_arithm_i` borrows the
registers named by the `rt` and `rs` fields, then — as written in the source —
the dispatch matches on `*rt`, the VALUE of the register indexed by the `rt`
field, not on the field itself.  The and-link variants call
`registers.link(31)` while the `rt`/`rs` borrows are still alive, so a 31
among those fields panics. -/
def handle_opcode_one (instr : Nat) (_memory : MemoryMap) (registers : Registers) :
    Option (Next × Registers) :=
  match parse_arithm_i instr registers with
  | none => none
  | some (_, rtVal, rsVal, imm16) =>
    match rtVal with
    | 0x0 =>
      if rsVal ≥ 1 <<< 31 then
        some (Next.Branch (add_ihalf_to_uword registers.pc imm16), registers)
      else some (Next.Forward, registers)
    | 0x1 =>
      if rsVal < 1 <<< 31 then
        some (Next.Branch (add_ihalf_to_uword registers.pc imm16), registers)
      else some (Next.Forward, registers)
    | 0x10 =>
      if rsVal ≥ 1 <<< 31 then
        if isolate_rt instr = 31 ∨ isolate_rs instr = 31 then none
        else
          match registers.link 31 with
          | none => none
          | some reg2 => some (Next.Branch (add_ihalf_to_uword reg2.pc imm16), reg2)
      else some (Next.Forward, registers)
    | 0x11 =>
      if rsVal < 1 <<< 31 then
        if isolate_rt instr = 31 ∨ isolate_rs instr = 31 then none
        else
          match registers.link 31 with
          | none => none
          | some reg2 => some (Next.Branch (add_ihalf_to_uword reg2.pc imm16), reg2)
      else some (Next.Forward, registers)
    | _ => none

/-- Source `perform_cycle`: fetch the word at PC (an exception from the
memory map becomes `Next::Exception`), decode the opcode, and dispatch.  The
function never writes the PC; the caller updates it from the returned
outcome. -/
def perform_cycle (memory : MemoryMap) (registers : Registers) :
    Option (Next × Registers) :=
  match memory.load_word registers.pc with
  | none => none
  | some (.error e) => some (Next.Exception e, registers)
  | some (.ok instr) =>
    match isolate_opcode instr with
    | 0x0 => handle_opcode_zero instr memory registers
    | 0x1 => handle_opcode_one instr memory registers
    | 0x2 => some (Next.Branch (isolate_target_26 instr), registers)
    | 0x3 =>
      match registers.link 31 with
      | none => none
      | some reg2 => some (Next.Branch (isolate_target_26 instr), reg2)
    | 0x4 =>
      match parse_arithm_i instr registers with
      | none => none
      | some (_, rtVal, rsVal, offset) =>
        if rtVal = rsVal then
          some (Next.Branch (add_ihalf_to_uword registers.pc offset), registers)
        else some (Next.Forward, registers)
    | 0x5 =>
      match parse_arithm_i instr registers with
      | none => none
      | some (_, rtVal, rsVal, offset) =>
        if rtVal ≠ rsVal then
          some (Next.Branch (add_ihalf_to_uword registers.pc offset), registers)
        else some (Next.Forward, registers)
    | 0x6 =>
      match parse_arithm_i instr registers with
      | none => none
      | some (_, _, rsVal, offset) =>
        if rsVal = 0 ∨ rsVal ≥ 1 <<< 31 then
          some (Next.Branch (add_ihalf_to_uword registers.pc offset), registers)
        else some (Next.Forward, registers)
    | 0x7 =>
      match parse_arithm_i instr registers with
      | none => none
      | some (_, _, rsVal, offset) =>
        if 1 ≤ rsVal ∧ rsVal < 1 <<< 31 then
          some (Next.Branch (add_ihalf_to_uword registers.pc offset), registers)
        else some (Next.Forward, registers)
    | 0x8 =>
      match parse_arithm_i instr registers with
      | none => none
      | some (rtIdx, _, rsVal, imm16) =>
        match checked_add rsVal (sign_extend 16 imm16) with
        | none => none
        | some sum =>
          if twos_complement_overflowed rsVal (sign_extend 16 imm16) sum then
            some (Next.Exception Exception.Overflow, registers)
          else some (Next.Forward, registers.write rtIdx sum)
    | 0x9 =>
      match parse_arithm_i instr registers with
      | none => none
      | some (rtIdx, _, rsVal, imm16) =>
        match checked_add rsVal (sign_extend 16 imm16) with
        | none => none
        | some sum => some (Next.Forward, registers.write rtIdx sum)
    | 0xa =>
      match parse_arithm_i instr registers with
      | none => none
      | some (rtIdx, _, rsVal, imm16) =>
        match checked_sub rsVal (sign_extend 16 imm16) with
        | none => none
        | some diff => some (Next.Forward, registers.write rtIdx (diff >>> 31))
    | 0xb =>
      match parse_arithm_i instr registers with
      | none => none
      | some (rtIdx, _, rsVal, imm16) =>
        some (Next.Forward,
          registers.write rtIdx (if rsVal < sign_extend 16 imm16 then 1 else 0))
    | 0xc =>
      match parse_arithm_i instr registers with
      | none => none
      | some (rtIdx, _, rsVal, imm16) =>
        some (Next.Forward, registers.write rtIdx (rsVal &&& imm16))
    | 0xd =>
      match parse_arithm_i instr registers with
      | none => none
      | some (rtIdx, _, rsVal, imm16) =>
        some (Next.Forward, registers.write rtIdx (rsVal ||| imm16))
    | 0xe =>
      match parse_arithm_i instr registers with
      | none => none
      | some (rtIdx, _, rsVal, imm16) =>
        some (Next.Forward, registers.write rtIdx (rsVal ^^^ imm16))
    | 0xf =>
      some (Next.Forward,
        registers.write (isolate_rt instr) ((isolate_imm16 instr) <<< 16))
    | 0x20 =>
      match parse_arithm_i instr registers with
      | none => none
      | some (rtIdx, _, rsVal, offset) =>
        match memory.load_byte (add_ihalf_to_uword rsVal offset) with
        | none => none
        | some (.error e) => some (Next.Exception e, registers)
        | some (.ok b) => some (Next.Forward, registers.write rtIdx (sign_extend 8 b))
    | 0x21 =>
      match parse_arithm_i instr registers with
      | none => none
      | some (rtIdx, _, rsVal, offset) =>
        match memory.load_halfword (add_ihalf_to_uword rsVal offset) with
        | none => none
        | some (.error e) => some (Next.Exception e, registers)
        | some (.ok h) => some (Next.Forward, registers.write rtIdx (sign_extend 16 h))
    | 0x23 =>
      match parse_arithm_i instr registers with
      | none => none
      | some (rtIdx, _, rsVal, offset) =>
        match memory.load_word (add_ihalf_to_uword rsVal offset) with
        | none => none
        | some (.error e) => some (Next.Exception e, registers)
        | some (.ok w) => some (Next.Forward, registers.write rtIdx w)
    | 0x24 =>
      match parse_arithm_i instr registers with
      | none => none
      | some (rtIdx, _, rsVal, offset) =>
        match memory.load_byte (add_ihalf_to_uword rsVal offset) with
        | none => none
        | some (.error e) => some (Next.Exception e, registers)
        | some (.ok b) => some (Next.Forward, registers.write rtIdx b)
    | 0x25 =>
      match parse_arithm_i instr registers with
      | none => none
      | some (rtIdx, _, rsVal, offset) =>
        match memory.load_halfword (add_ihalf_to_uword rsVal offset) with
        | none => none
        | some (.error e) => some (Next.Exception e, registers)
        | some (.ok h) => some (Next.Forward, registers.write rtIdx h)
    | _ => none

/-! ## Concrete fixtures

Memory maps built the way the loader builds them (`ProgramDataBuilder` with a
`.text` byte image), and register files derived from `Registers::init`. -/

/-- A memory map whose `.text` image is the given little-endian byte list. -/
def textMap (bytes : List Nat) : MemoryMap := { program := buildProgram bytes }

/-- Image `[jal 0x100004]`, i.e. the word `0x0C100004`. -/
def jalMap : MemoryMap := textMap [0x04, 0x00, 0x10, 0x0C]

/-- Image `[beq $8, $9, 1]`, i.e. the word `0x11090001`. -/
def beqMap : MemoryMap := textMap [0x01, 0x00, 0x09, 0x11]

/-- Registers with `$9 = 3` so that `$8 = $9` and the branch is taken. -/
def beqRegs : Registers := Registers.init.write 9 3

/-- Image `[addu $10, $8, $9]`, the spec's encoding example `0x01095021`. -/
def adduMap : MemoryMap := textMap [0x21, 0x50, 0x09, 0x01]

/-- Image `[addiu $0, $8, 5]`, i.e. the word `0x25000005`: an instruction
naming register 0 as its destination. -/
def zeroDestMap : MemoryMap := textMap [0x05, 0x00, 0x00, 0x25]

/-- Image `[addi $9, $8, 1]`, i.e. the word `0x21090001`. -/
def addiMap : MemoryMap := textMap [0x01, 0x00, 0x09, 0x21]

/-- Registers with `$8 = 0x7FFFFFFF` (largest positive signed word). -/
def maxPosRegs : Registers := Registers.init.write 8 0x7FFFFFFF

/-- Image `[add $10, $8, $9]`, i.e. the word `0x01095020`. -/
def addMap : MemoryMap := textMap [0x20, 0x50, 0x09, 0x01]

/-- Registers with `$8 = $9 = 0x7FFFFFFF`, so `add` overflows. -/
def addOvRegs : Registers := (Registers.init.write 8 0x7FFFFFFF).write 9 0x7FFFFFFF

/-- Image `[sub $10, $8, $9]`, i.e. the word `0x01095022`. -/
def subMap : MemoryMap := textMap [0x22, 0x50, 0x09, 0x01]

/-- Registers with `$8 = 0, $9 = 1`, on which the source's overflow test for
`sub` fires. -/
def subOvRegs : Registers := (Registers.init.write 8 0).write 9 1

/-- Image `[addiu $10, $8, 1]`, i.e. the word `0x250A0001`. -/
def addiuMap : MemoryMap := textMap [0x01, 0x00, 0x0A, 0x25]

/-- Registers with `$8 = 0xFFFFFFFF`, making the non-wrapping `addiu` sum
overflow the unsigned word. -/
def maxWordRegs : Registers := Registers.init.write 8 0xFFFFFFFF

/-- Image `[sra $10, $9, 2]`, i.e. the word `0x00095083`. -/
def sraMap : MemoryMap := textMap [0x83, 0x50, 0x09, 0x00]

/-- Image `[sra $10, $9, 1]`, i.e. the word `0x00095043`. -/
def sraOneMap : MemoryMap := textMap [0x43, 0x50, 0x09, 0x00]

/-- Registers with `$9 = 0x80000000` (negative). -/
def negRegs : Registers := Registers.init.write 9 0x80000000

/-- Image `[add $8, $8, $9]`, i.e. the word `0x01094020`: an R-type compute
instruction with `rd = rs` and a distinct `rt`. -/
def addAliasMap : MemoryMap := textMap [0x20, 0x40, 0x09, 0x01]

/-- A hybrid store with a single two-byte span `[0xAA, 0xBB]` at offset 0 and
an untouched segmented fallback. -/
def straddleStore : HybridStore :=
  { regions := [{ index := 0, data := [0xAA, 0xBB] }], fallback := SegmentedStore.new }

/-- A memory map whose `.text` hybrid store is `straddleStore`. -/
def straddleMap : MemoryMap :=
  { program := { buildProgram [] with text := { storage := straddleStore, labels := [] } } }

/-- A zeroed 2048-byte fallback segment at offset 0 carrying `0xCC, 0xDD` at
offsets 2 and 3 (the state after a fallback write touched the frame). -/
def straddleSeg : Segment :=
  { index := 0, data := [0, 0, 0xCC, 0xDD] ++ List.replicate 2044 0 }

/-- The straddle store with its fallback frame allocated: bytes 0 and 1 come
from the span, bytes 2 and 3 from the segmented fallback. -/
def straddleStoreTouched : HybridStore :=
  { regions := [{ index := 0, data := [0xAA, 0xBB] }]
    fallback := { segments := [straddleSeg] } }

/-! ## PC-preservation helper lemmas -/

/-- A register write never touches the PC field. -/
theorem Registers.write_pc (r : Registers) (n v : Nat) : (r.write n v).pc = r.pc := rfl

/-- `Registers::link` writes a regular register, never the PC. -/
theorem Registers.link_pc {r : Registers} {n : Nat} {r2 : Registers}
    (h : r.link n = some r2) : r2.pc = r.pc := by
  unfold Registers.link at h
  split at h
  · split at h
    · rw [Option.some_inj] at h
      subst h
      rfl
    · exact Option.noConfusion h
  · exact Option.noConfusion h

/-- No funct handler under opcode zero modifies the PC. -/
theorem handle_opcode_zero_pc (instr : Nat) (m : MemoryMap) (r : Registers)
    (p : Next × Registers) (h : handle_opcode_zero instr m r = some p) :
    p.2.pc = r.pc := by
  unfold handle_opcode_zero at h
  repeat' split at h
  all_goals first
    | exact Option.noConfusion h
    | (rw [Option.some_inj] at h; subst h;
       first | rfl | exact Registers.link_pc (by assumption))

/-- No REGIMM handler modifies the PC. -/
theorem handle_opcode_one_pc (instr : Nat) (m : MemoryMap) (r : Registers)
    (p : Next × Registers) (h : handle_opcode_one instr m r = some p) :
    p.2.pc = r.pc := by
  unfold handle_opcode_one at h
  repeat' split at h
  all_goals first
    | exact Option.noConfusion h
    | (rw [Option.some_inj] at h; subst h;
       first | rfl | exact Registers.link_pc (by assumption))

/-! ## Claim theorems -/

/-- Claim C1.  The claim says a `jal` fetched at PC `p` yields
`Branch((p & 0xF0000000) | (target26 << 2))` and writes `p + 4` into `$31`;
on `jal 0x100004` at `0x00400000` that target would be `0x00400010`.  The
code links `$31 = 0x00400004` as claimed but branches to the RAW 26-bit
field, `0x00100004`, because `isolate_target_26` neither shifts nor merges
the PC's upper bits. -/
theorem jal_raw_target_eval :
    (perform_cycle jalMap Registers.init).map (fun p => p.1) =
      some (Next.Branch 0x00100004) ∧
    (perform_cycle jalMap Registers.init).map (fun p => p.2.read 31) =
      some 0x00400004 ∧
    (0x00100004 : Nat) ≠ ((0x00400000 &&& 0xF0000000) ||| (0x100004 <<< 2)) := by
  refine ⟨rfl, rfl, by decide⟩

/-- Claim C2.  The claim says every taken conditional branch at PC `p` with
16-bit offset `imm16` reports target `(p + 4) + (sext16(imm16) << 2)`.  The
code computes `add_ihalf_to_uword(pc, imm16) = pc + sext16(imm16)` — no
`+ 4` and no left shift: the taken `beq $8, $9, 1` fetched at `0x00400000`
reports `Branch(0x00400001)` where the claim requires `0x00400008`. -/
theorem beq_taken_target_eval :
    (perform_cycle beqMap beqRegs).map (fun p => p.1) =
      some (Next.Branch 0x00400001) ∧
    (0x00400001 : Nat) ≠ (0x00400000 + 4) + ((sign_extend 16 1) <<< 2) := by
  refine ⟨rfl, by decide⟩

/-- Claim C3.  The claim says `load_word` on a misaligned address returns the
address-error exception; in particular a word load at `0x00400001` yields
`Exception(AddrLoadFetch)`.  The code performs no alignment check anywhere on
the load path (`load_word`, `load_halfword`, `core_load`): the load at
`0x00400001` succeeds with `Ok` (here the absent straddling word is zeroed by
`unwrap_or(0)`). -/
theorem load_word_misaligned_eval :
    MemoryMap.load_word adduMap 0x00400001 = some (Except.ok 0) ∧
    MemoryMap.load_word adduMap 0x00400001 ≠
      some (Except.error Exception.AddrLoadFetch) ∧
    (0x00400001 : Nat) &&& 3 ≠ 0 := by
  refine ⟨rfl, ?_, by decide⟩
  rw [show MemoryMap.load_word adduMap 0x00400001 = some (Except.ok 0) from rfl]
  simp

/-- Claim C4.  The claim says general register 0 reads as zero in every
reachable state, writes to it being squashed or reads clamped.  The code does
neither: one cycle of `addiu $0, $8, 5` from `Registers::init` (where
`$8 = 3`) leaves register 0 holding 8, which subsequent reads return. -/
theorem zero_register_written_eval :
    (perform_cycle zeroDestMap Registers.init).map (fun p => p.2.read 0) =
      some 8 ∧ (8 : Nat) ≠ 0 := by
  refine ⟨rfl, by decide⟩

/-- Claim C5.  Executing `addi` with `rs` holding `0x7FFFFFFF` and immediate 1
returns `Exception(Overflow)` with the register file (hence `rt`) exactly as
before the execute step, and the same atomicity holds whenever the code's
overflow test fires for `add` and for `sub`: the exception is returned before
the destination write, so the returned register state is the input state.
Memory is untouched throughout (the cycle engine has no store path). -/
theorem overflow_exception_atomic (m : MemoryMap) (r : Registers) (instr : Nat) :
    (m.load_word r.pc = some (Except.ok instr) →
      isolate_opcode instr = 0x8 →
      isolate_rt instr ≠ isolate_rs instr →
      r.read (isolate_rs instr) = 0x7FFFFFFF →
      isolate_imm16 instr = 1 →
      perform_cycle m r = some (Next.Exception Exception.Overflow, r)) ∧
    (m.load_word r.pc = some (Except.ok instr) →
      isolate_opcode instr = 0x0 →
      isolate_funct instr = 0x20 →
      isolate_rs instr ≠ isolate_rd instr →
      isolate_rt instr ≠ isolate_rd instr →
      isolate_rt instr ≠ isolate_rs instr →
      twos_complement_overflowed (r.read (isolate_rs instr))
        (r.read (isolate_rt instr))
        (wrapping_add (r.read (isolate_rs instr)) (r.read (isolate_rt instr))) = true →
      perform_cycle m r = some (Next.Exception Exception.Overflow, r)) ∧
    (m.load_word r.pc = some (Except.ok instr) →
      isolate_opcode instr = 0x0 →
      isolate_funct instr = 0x22 →
      isolate_rs instr ≠ isolate_rd instr →
      isolate_rt instr ≠ isolate_rd instr →
      isolate_rt instr ≠ isolate_rs instr →
      twos_complement_overflowed (r.read (isolate_rs instr))
        (r.read (isolate_rt instr))
        (wrapping_sub (r.read (isolate_rs instr)) (r.read (isolate_rt instr))) = true →
      perform_cycle m r = some (Next.Exception Exception.Overflow, r)) := by
  refine ⟨?_, ?_, ?_⟩
  · intro hfetch hop hne hrs himm
    unfold perform_cycle
    rw [hfetch]
    dsimp only
    rw [hop]
    dsimp only
    unfold parse_arithm_i
    rw [if_neg hne, hrs, himm]
    rfl
  · intro hfetch hop hfunct hne1 hne2 hne3 hov
    unfold perform_cycle
    rw [hfetch]
    dsimp only
    rw [hop]
    dsimp only
    unfold handle_opcode_zero
    rw [hfunct]
    dsimp only
    unfold parse_arithm_r
    rw [if_neg (by tauto : ¬(isolate_rs instr = isolate_rd instr ∨
      isolate_rt instr = isolate_rd instr ∨ isolate_rt instr = isolate_rs instr))]
    dsimp only
    simp only [hov, if_true]
  · intro hfetch hop hfunct hne1 hne2 hne3 hov
    unfold perform_cycle
    rw [hfetch]
    dsimp only
    rw [hop]
    dsimp only
    unfold handle_opcode_zero
    rw [hfunct]
    dsimp only
    unfold parse_arithm_r
    rw [if_neg (by tauto : ¬(isolate_rs instr = isolate_rd instr ∨
      isolate_rt instr = isolate_rd instr ∨ isolate_rt instr = isolate_rs instr))]
    dsimp only
    simp only [hov, if_true]

/-- Witness for C5: the three overflow scenarios evaluated on concrete
programs — `addi $9, $8, 1` with `$8 = 0x7FFFFFFF`, `add $10, $8, $9` with
both operands `0x7FFFFFFF`, and `sub $10, $8, $9` with `$8 = 0, $9 = 1` —
all return the overflow exception with the register file unchanged. -/
theorem overflow_exception_atomic_witness :
    perform_cycle addiMap maxPosRegs = some (Next.Exception Exception.Overflow, maxPosRegs) ∧
    perform_cycle addMap addOvRegs = some (Next.Exception Exception.Overflow, addOvRegs) ∧
    perform_cycle subMap subOvRegs = some (Next.Exception Exception.Overflow, subOvRegs) := by
  refine ⟨?_, ?_, ?_⟩
  · exact (overflow_exception_atomic addiMap maxPosRegs 0x21090001).1
      rfl (by decide) (by decide) rfl (by decide)
  · exact (overflow_exception_atomic addMap addOvRegs 0x01095020).2.1
      rfl (by decide) (by decide) (by decide) (by decide) (by decide) rfl
  · exact (overflow_exception_atomic subMap subOvRegs 0x01095022).2.2
      rfl (by decide) (by decide) (by decide) (by decide) (by decide) rfl

/-- Claim C6.  The claim says `addiu` wraps modulo `2^32` for EVERY `rs`
value, never raising an exception or aborting.  The particular instance does
hold: with `$8 = 0x7FFFFFFF` and immediate 1 the code writes
`rt = 0x80000000` and reports `Forward`.  But the code uses a non-wrapping
`+`: with `$8 = 0xFFFFFFFF` and immediate 1 the unsigned sum overflows and
the cycle panics (embedded as `none`) instead of wrapping to 0. -/
theorem addiu_wraps_vs_panics_eval :
    (perform_cycle addiuMap maxPosRegs).map (fun p => (p.1, p.2.read 10)) =
      some (Next.Forward, 0x80000000) ∧
    perform_cycle addiuMap maxWordRegs = none := by
  refine ⟨rfl, rfl⟩

/-- Claim C7.  The claim says `sra` replicates the sign bit into ALL vacated
high bits for every shamt in `0..31`.  The code computes
`(rt >> shamt) | (rt & 0x80000000)`, which re-inserts only bit 31: for
`rt = 0x80000000` and `shamt = 1` it happens to give the claimed
`0xC0000000`, but for `shamt = 2` it yields `0xA0000000` where a
sign-replicating shift gives `0xE0000000`. -/
theorem sra_shamt_two_eval :
    (perform_cycle sraOneMap negRegs).map (fun p => (p.1, p.2.read 10)) =
      some (Next.Forward, 0xC0000000) ∧
    (perform_cycle sraMap negRegs).map (fun p => (p.1, p.2.read 10)) =
      some (Next.Forward, 0xA0000000) ∧
    (0xA0000000 : Nat) ≠ 0xE0000000 := by
  refine ⟨rfl, rfl, by decide⟩

/-- Claim C8.  The claim says an R-type compute instruction with `rd = rs`
(and a distinct in-range `rt`) executes normally because only one of the
coinciding handles is mutable.  In the code `parse_arithm_r` obtains ALL
three registers as mutable `RefMut` borrows, so `add $8, $8, $9` (fields
`rd = rs = 8`, `rt = 9`) collides on the second borrow of register 8 and the
`.unwrap()` panics (embedded as `none`) instead of executing. -/
theorem rtype_rd_eq_rs_faults_eval :
    perform_cycle addAliasMap Registers.init = none ∧
    isolate_rd 0x01094020 = isolate_rs 0x01094020 ∧
    isolate_rt 0x01094020 ≠ isolate_rd 0x01094020 ∧
    isolate_rt 0x01094020 < 32 := by
  refine ⟨rfl, by decide, by decide, by decide⟩

/-- Counterexample for claim C9.  A word read at offset 0 of a hybrid store
whose span holds bytes `0xAA, 0xBB` at offsets 0 and 1, with the fallback
untouched, is ABSENT (`none`) — not the byte-correct word — and on the
memory-map load path the whole word collapses to `Ok 0`, an all-zero word
that loses the span's bytes. -/
theorem hybrid_straddle_untouched_eval :
    HybridStore.read_byte straddleStore 0 = some 0xAA ∧
    HybridStore.read_byte straddleStore 2 = none ∧
    HybridStore.read_word straddleStore 0 = none ∧
    MemoryMap.load_word straddleMap 0x00400000 = some (Except.ok 0) ∧
    (0 : Nat) ≠ u32_from_le_bytes 0xAA 0xBB 0 0 := by
  refine ⟨rfl, rfl, rfl, rfl, by decide⟩

/-- Claim C9, as amended: a multi-byte read of the hybrid store is composed
byte-by-byte, and a word read whose four bytes are all present — whether
supplied by a continuous span or by an allocated segmented-fallback frame —
returns the byte-correct little-endian word; when some byte is outside every
span and its fallback frame is untouched, the read is absent (and the
memory-map load path then returns an all-zero word). -/
theorem hybrid_read_word_bytewise (h : HybridStore) (i b0 b1 b2 b3 : Nat)
    (h0 : h.read_byte i = some b0) (h1 : h.read_byte (i + 1) = some b1)
    (h2 : h.read_byte (i + 2) = some b2) (h3 : h.read_byte (i + 3) = some b3) :
    h.read_word i = some (u32_from_le_bytes b0 b1 b2 b3) := by
  unfold HybridStore.read_word
  rw [h0, h1, h2, h3]

/-- Witness for C9's amended claim: reading a word at offset 0 of the
straddle store with its fallback frame allocated mixes provenances — bytes
`0xAA, 0xBB` from the span, `0xCC, 0xDD` from the fallback — into the
byte-correct little-endian word `0xDDCCBBAA`. -/
theorem hybrid_read_word_bytewise_witness :
    HybridStore.read_word straddleStoreTouched 0 =
      some (u32_from_le_bytes 0xAA 0xBB 0xCC 0xDD) := by
  exact hybrid_read_word_bytewise straddleStoreTouched 0 0xAA 0xBB 0xCC 0xDD
    rfl rfl rfl rfl

/-- Claim C10.  Whenever `perform_cycle` returns (does not panic), the PC in
the returned register state equals the PC on entry, for every memory map and
register state: control transfer is communicated only through the returned
outcome, and every PC update is left to the caller.  (Register writes go
through `Registers.write`, `link`, or the HI/LO fields, none of which touch
the PC.) -/
theorem perform_cycle_preserves_pc (m : MemoryMap) (r : Registers)
    (p : Next × Registers) (h : perform_cycle m r = some p) : p.2.pc = r.pc := by
  unfold perform_cycle at h
  repeat' split at h
  all_goals first
    | exact Option.noConfusion h
    | exact handle_opcode_zero_pc _ _ _ _ h
    | exact handle_opcode_one_pc _ _ _ _ h
    | (rw [Option.some_inj] at h; subst h;
       first | rfl | exact Registers.link_pc (by assumption))

/-- Witness for C10: the concrete `addiu $0, $8, 5` cycle from
`Registers::init` returns a state whose PC equals the entry PC. -/
theorem perform_cycle_preserves_pc_witness :
    (Registers.init.write 0 8).pc = Registers.init.pc := by
  exact perform_cycle_preserves_pc zeroDestMap Registers.init
    (Next.Forward, Registers.init.write 0 8) rfl

end Mips
